import Mathlib

/-!
# A verification development of the baton workflow engine

This file gives a shallow embedding, in Lean, of the workflow graph
compiler and execution engine of the `baton` repository:

* the JavaScript value model needed by the engine (`JsValue`), with JS
  truthiness and JS object-spread merge semantics over insertion-ordered
  records,
* the LangGraph state channels and their reducers
  (`src/graph/builder.ts`, `OrchestratorStateAnnotation`),
* the expression-evaluation wrappers `evaluateCondition` and
  `executeMetadataUpdate` (`src/graph/builder.ts`),
* the per-node executor `createNodeExecutor` and the per-node router
  `createConditionRouter` (`src/graph/builder.ts`),
* the routing choice made by `buildGraph` (plain edge vs. router),
* the final-answer computation of `executeGraph`
  (`src/graph/executor.ts`), and
* the Zod structural validation of a candidate state-machine schema
  (`src/types/state.ts`, used by `ManagerAgent.generateStateMachine`).

External effects (the delegate CLI agents, the JS evaluation of
user-supplied condition/hook source strings, `JSON.stringify`, wall-clock
time) are modelled as explicit parameters: an agent is a function from the
prompt to either an output or a thrown error message, and the semantics of
a condition/hook code string is an oracle from the code string and the
context object to either a result value or a thrown error.  Console
logging (`verbose` mode) has no effect on any state and is not modelled.
-/

/-! ## JavaScript values

A `JsValue` models the JavaScript runtime values the engine touches.
Numbers are modelled as integers (the engine only ever compares retry
counters and `maxRetries`, which are integral in every reachable state;
`NaN` and fractional values play no role in the embedded code paths).
Objects and arrays are insertion-ordered lists; the engine's records are
modelled as insertion-ordered association lists.
-/

inductive JsValue : Type where
  | vUndefined : JsValue
  | vNull : JsValue
  | vBool : Bool → JsValue
  | vNum : Int → JsValue
  | vStr : String → JsValue
  | vObj : List (String × JsValue) → JsValue
  | vArr : List JsValue → JsValue

/-- JS truthiness of a value (`undefined`, `null`, `false`, `0`, and the
empty string are falsy; every object or array is truthy). -/
def truthy : JsValue → Bool
  | .vUndefined => false
  | .vNull => false
  | .vBool b => b
  | .vNum n => n != 0
  | .vStr s => s != ""
  | .vObj _ => true
  | .vArr _ => true

/-- `typeof v === "object"` (true for plain objects, arrays and `null`). -/
def jsTypeofObject : JsValue → Bool
  | .vNull => true
  | .vObj _ => true
  | .vArr _ => true
  | _ => false

/-- `v === null`. -/
def jsIsNull : JsValue → Bool
  | .vNull => true
  | _ => false

/-- The own enumerable string-keyed entries of a value, as consumed by an
object spread `{...v}`: the fields of an object, the index-keyed elements
of an array, and nothing for primitives. -/
def jsObjectEntries : JsValue → List (String × JsValue)
  | .vObj fields => fields
  | .vArr elems => elems.enum.map (fun p => (toString p.1, p.2))
  | _ => []

/-- JS truthiness of a `string | null` field such as `state.error`
(`null` and the empty string are falsy). -/
def jsStrTruthy : Option String → Bool
  | none => false
  | some s => s != ""

/-! ## Insertion-ordered records

`Record<string, V>` values are modelled as insertion-ordered association
lists.  `recGet` is property lookup, `recSet` is property assignment
(an existing key keeps its position, a new key is appended — exactly the
JS object-update order), and `jsMerge a b` is the object spread
`{...a, ...b}`.
-/

/-- Property lookup, first match (the engine's records are key-unique). -/
def recGet {V : Type} : List (String × V) → String → Option V
  | [], _ => none
  | p :: rest, k => if p.1 = k then some p.2 else recGet rest k

/-- `k in m`. -/
def recHasKey {V : Type} (m : List (String × V)) (k : String) : Bool :=
  m.any (fun p => p.1 == k)

/-- Lookup with a default, modelling `m[k] ?? d`. -/
def recGetD {V : Type} (m : List (String × V)) (k : String) (d : V) : V :=
  (recGet m k).getD d

/-- Property assignment: an existing key is overwritten in place, a new
key is appended. -/
def recSet {V : Type} (m : List (String × V)) (k : String) (v : V) :
    List (String × V) :=
  if recHasKey m k then m.map (fun p => if p.1 = k then (k, v) else p)
  else m ++ [(k, v)]

/-- Object spread `{...a, ...b}`: the entries of `b` assigned, in order,
on top of `a`. -/
def jsMerge {V : Type} (a b : List (String × V)) : List (String × V) :=
  b.foldl (fun acc p => recSet acc p.1 p.2) a

/-- The values of a record in enumeration order, `Object.values(m)`. -/
def recValues {V : Type} (m : List (String × V)) : List V :=
  m.map (fun p => p.2)

/-! ## Schema data model (`src/types/state.ts`) -/

/-- `ConditionDefinitionSchema`: a JS condition source string. -/
structure ConditionDefinition where
  code : String
  description : Option String := none
deriving DecidableEq

/-- `EdgeDefinitionSchema`.  The source fields `from` and `to` clash with
Lean keywords and are embedded as `from_` and `to_`. -/
structure EdgeDefinition where
  from_ : String
  to_ : String
  condition : Option ConditionDefinition := none
deriving DecidableEq

/-- `StateNodeDefinitionSchema`.  `maxRetries` is `z.number().optional()`
(any number, also negative); `agentType` is kept as the raw string member
of the configured agent enum. -/
structure StateNodeDefinition where
  id : String
  name : String
  description : String
  agentType : String
  basePrompt : String
  maxRetries : Option Int := none
  onSuccess : Option String := none
  onError : Option String := none
deriving DecidableEq

/-- `StateMachineSchemaDefinition` (the parsed TypeScript type
`StateMachineSchema`). -/
structure StateMachineSchema where
  plan : String
  diagram : String
  nodes : List StateNodeDefinition
  edges : List EdgeDefinition
  startNodeId : String
  endNodeId : String
  initialMetadata : Option (List (String × JsValue)) := none

/-! ## Execution state and reducers (`OrchestratorStateAnnotation`) -/

/-- The LangGraph state, `OrchestratorStateType`.  The source channel
`_retryCount` is embedded as `retryCount`. -/
structure OrchestratorStateType where
  prompt : String
  nodeOutputs : List (String × String)
  finalAnswer : String
  error : Option String
  metadata : List (String × JsValue)
  currentNode : Option String
  retryCount : List (String × Int)

/-- The scalar channel reducer `(_, y) => y` used for `prompt`,
`finalAnswer`, `error` and `currentNode`. -/
def scalarReducer {α : Type} (_a b : α) : α := b

/-- The mapping channel reducer `(a, b) => ({...a, ...b})` used for
`nodeOutputs`, `metadata` and `_retryCount`. -/
def mappingReducer {V : Type} (a b : List (String × V)) :
    List (String × V) :=
  jsMerge a b

/-- A `Partial<OrchestratorStateType>` returned by a node executor: each
present field is fed to that channel's reducer, each absent field leaves
the channel untouched.  (`prompt` and `finalAnswer` are never part of a
node executor's patch.) -/
structure StatePatch where
  nodeOutputs : Option (List (String × String)) := none
  metadata : Option (List (String × JsValue)) := none
  error : Option (Option String) := none
  currentNode : Option (Option String) := none
  retryCount : Option (List (String × Int)) := none

/-- Application of one completion patch to the state through the
per-channel reducers. -/
def applyPatch (s : OrchestratorStateType) (p : StatePatch) :
    OrchestratorStateType :=
  { s with
    nodeOutputs :=
      match p.nodeOutputs with
      | some u => mappingReducer s.nodeOutputs u
      | none => s.nodeOutputs
    metadata :=
      match p.metadata with
      | some u => mappingReducer s.metadata u
      | none => s.metadata
    error :=
      match p.error with
      | some u => scalarReducer s.error u
      | none => s.error
    currentNode :=
      match p.currentNode with
      | some u => scalarReducer s.currentNode u
      | none => s.currentNode
    retryCount :=
      match p.retryCount with
      | some u => mappingReducer s.retryCount u
      | none => s.retryCount }

/-! ## Expression evaluation (`src/graph/builder.ts`) -/

/-- The context object handed to a condition expression. -/
structure ConditionContext where
  nodeOutputs : List (String × String)
  metadata : List (String × JsValue)
  error : Option String
  currentNode : Option String

/-- The context object handed to a hook expression.  The source fields are
`$output`, `$error`, `$elapsedMs`, `$retryCount`, `$metadata`, `$nodeId`. -/
structure MetadataUpdateContext where
  output : Option String := none
  error : Option String := none
  elapsedMs : Int
  retryCount : Int
  metadata : List (String × JsValue)
  nodeId : String

/-- The semantics of `new Function("ctx", "return (" + code + ")")`
applied to a context: for each condition source string either the value it
returns or the error it throws (a construction-time syntax error is an
error as well).  The JS evaluation itself is external to the engine and is
a parameter of the embedding. -/
def CondOracle : Type :=
  String → ConditionContext → Except String JsValue

/-- The semantics of the compiled hook function, analogous to
`CondOracle`. -/
def HookOracle : Type :=
  String → MetadataUpdateContext → Except String JsValue

/-- `evaluateCondition`: runs the compiled condition and returns its raw
result; any thrown error is caught, logged and turned into `false`. -/
def evaluateCondition (condEval : CondOracle) (conditionCode : String)
    (ctx : ConditionContext) : JsValue :=
  match condEval conditionCode ctx with
  | .ok v => v
  | .error _ => JsValue.vBool false

/-- `executeMetadataUpdate`: runs the compiled hook; a non-null object (or
array) result is returned as the metadata patch, every other result — and
any thrown error — becomes the empty mapping. -/
def executeMetadataUpdate (hookEval : HookOracle) (code : String)
    (context : MetadataUpdateContext) : List (String × JsValue) :=
  match hookEval code context with
  | .ok result =>
      if jsTypeofObject result && !jsIsNull result then jsObjectEntries result
      else []
  | .error _ => []

/-! ## Node executor (`createNodeExecutor`) -/

/-- The delegate CLI agent bound to a node: `execute` yields the output
text or the thrown error's message (`error.message` / `String(error)`).
Internal agent-level retry is opaque behind this function, exactly as in
the engine. -/
structure CLIAgent where
  execute : String → Except String String

/-- `createNodeExecutor node agents`, applied to a state: the patch the
node's executor returns.  `hookEval` is the hook-expression semantics,
`jsonStringify` models `JSON.stringify(state.nodeOutputs, null, 2)`, and
`elapsedMs` the measured wall-clock time of the delegate call. -/
def createNodeExecutor (node : StateNodeDefinition)
    (agents : String → Option CLIAgent) (hookEval : HookOracle)
    (jsonStringify : List (String × String) → String) (elapsedMs : Int)
    (state : OrchestratorStateType) : StatePatch :=
  match agents node.id with
  | none =>
      { error := some (some ("No agent available for node: " ++ node.id)),
        currentNode := some (some node.id) }
  | some agent =>
      let attemptNumber : Int := recGetD state.retryCount node.id 0 + 1
      let maxRetries : Int := node.maxRetries.getD 0
      let totalAttempts : Int := maxRetries + 1
      let fullPrompt : String :=
        node.basePrompt ++ "\n\nContext from previous steps:\n" ++
          jsonStringify state.nodeOutputs
      match agent.execute fullPrompt with
      | .ok output =>
          let metadataUpdate : List (String × JsValue) :=
            match node.onSuccess with
            | some code =>
                executeMetadataUpdate hookEval code
                  { output := some output, elapsedMs := elapsedMs,
                    retryCount := attemptNumber - 1,
                    metadata := state.metadata, nodeId := node.id }
            | none => []
          { nodeOutputs := some [(node.id, output)],
            metadata := some metadataUpdate,
            currentNode := some (some node.id),
            error := some none,
            retryCount := some [(node.id, attemptNumber)] }
      | .error errorMessage =>
          let metadataUpdate : List (String × JsValue) :=
            match node.onError with
            | some code =>
                executeMetadataUpdate hookEval code
                  { error := some errorMessage, elapsedMs := elapsedMs,
                    retryCount := attemptNumber - 1,
                    metadata := state.metadata, nodeId := node.id }
            | none => []
          if attemptNumber < totalAttempts then
            { metadata := some metadataUpdate,
              currentNode := some (some node.id),
              error := some (some errorMessage),
              retryCount := some [(node.id, attemptNumber)] }
          else
            { error := some (some ("Node " ++ node.id ++ " failed after " ++
                toString attemptNumber ++ " attempts: " ++ errorMessage)),
              metadata := some metadataUpdate,
              currentNode := some (some node.id),
              retryCount := some [(node.id, attemptNumber)] }

/-! ## Router (`createConditionRouter`) and graph compilation -/

/-- What a router returns: LangGraph's `END` sentinel, a single
destination node id, or a fan-out list of destinations. -/
inductive RouterResult : Type where
  | toEnd : RouterResult
  | one : String → RouterResult
  | many : List String → RouterResult
deriving DecidableEq

/-- The destination set denoted by a router return value (`END` denotes
no destinations). -/
def RouterResult.destinations : RouterResult → List String
  | .toEnd => []
  | .one d => [d]
  | .many ds => ds

/-- The condition context built by the router from the current state. -/
def routerCtx (state : OrchestratorStateType) : ConditionContext :=
  { nodeOutputs := state.nodeOutputs, metadata := state.metadata,
    error := state.error, currentNode := state.currentNode }

/-- The router's `Return based on number of destinations` tail: `END` for
an empty list, the single destination alone, else the fan-out list. -/
def routerReturn : List String → RouterResult
  | [] => RouterResult.toEnd
  | [d] => RouterResult.one d
  | ds => RouterResult.many ds

/-- `createConditionRouter schema fromNodeId`, applied to a state:
retry rule, then exhausted-retry fallback scan, then the success rule
(unconditional fan-out plus true conditional edges). -/
def createConditionRouter (condEval : CondOracle)
    (schema : StateMachineSchema) (fromNodeId : String)
    (state : OrchestratorStateType) : RouterResult :=
  let outgoingEdges := schema.edges.filter (fun e => e.from_ == fromNodeId)
  let node := schema.nodes.find? (fun n => n.id == fromNodeId)
  let totalAttempts : Int := (node.bind (fun n => n.maxRetries)).getD 0 + 1
  let ctx := routerCtx state
  let attemptNumber : Int := recGetD state.retryCount fromNodeId 0
  let hasOutput : Bool := recHasKey state.nodeOutputs fromNodeId
  if jsStrTruthy state.error && !hasOutput &&
      decide (attemptNumber < totalAttempts) then
    RouterResult.one fromNodeId
  else if jsStrTruthy state.error && decide (attemptNumber ≥ totalAttempts) then
    match outgoingEdges.find? (fun e =>
        match e.condition with
        | some c => truthy (evaluateCondition condEval c.code ctx)
        | none => false) with
    | some e => RouterResult.one e.to_
    | none => RouterResult.toEnd
  else
    let unconditionalEdges := outgoingEdges.filter (fun e => e.condition.isNone)
    let conditionalEdges := outgoingEdges.filter (fun e => e.condition.isSome)
    let destinations : List String :=
      unconditionalEdges.map (fun e => e.to_) ++
        conditionalEdges.filterMap (fun e =>
          match e.condition with
          | some c =>
              if truthy (evaluateCondition condEval c.code ctx) then some e.to_
              else none
          | none => none)
    routerReturn destinations

/-- The routing `buildGraph` wires for a node that has outgoing edges: the
full `createConditionRouter` when the node has a conditional edge, more
than one outgoing edge, or a positive `maxRetries`; otherwise the single
outgoing edge becomes a plain unconditional transition
(`graph.addEdge(nodeId, target)`).  (`buildGraph` only reaches this choice
for node ids with at least one outgoing edge; the `[]` case below stands
for a node that is given no routing at all.) -/
def compileNodeRouting (condEval : CondOracle) (schema : StateMachineSchema)
    (nodeId : String) : OrchestratorStateType → RouterResult :=
  let outgoingEdges := schema.edges.filter (fun e => e.from_ == nodeId)
  let hasConditions := outgoingEdges.any (fun e => e.condition.isSome)
  let node := schema.nodes.find? (fun n => n.id == nodeId)
  let hasRetry : Bool := decide ((node.bind (fun n => n.maxRetries)).getD 0 > 0)
  if hasConditions || decide (outgoingEdges.length > 1) || hasRetry then
    createConditionRouter condEval schema nodeId
  else
    match outgoingEdges with
    | e :: _ => fun _ => RouterResult.one e.to_
    | [] => fun _ => RouterResult.toEnd

/-! ## Execution engine (`src/graph/executor.ts`) -/

/-- The result object returned by `executeGraph`. -/
structure ExecutionResult where
  finalAnswer : String
  nodeOutputs : List (String × String)
  metadata : List (String × JsValue)
  error : Option String

/-- The initial state `executeGraph` seeds the run with. -/
def initialExecState (prompt : String)
    (metadata : Option (List (String × JsValue))) : OrchestratorStateType :=
  { prompt := prompt, nodeOutputs := [], finalAnswer := "", error := none,
    metadata := metadata.getD [], currentNode := none, retryCount := [] }

/-- The result `executeGraph` builds from the terminal state returned by
`graph.invoke`: `result.error ? "Error during execution: " + error :
(Object.values(result.nodeOutputs).pop() || "No output generated")`. -/
def executeGraphResult (result : OrchestratorStateType) : ExecutionResult :=
  let finalAnswer :=
    if jsStrTruthy result.error then
      "Error during execution: " ++ result.error.getD ""
    else
      match (recValues result.nodeOutputs).getLast? with
      | some v => if v != "" then v else "No output generated"
      | none => "No output generated"
  { finalAnswer := finalAnswer, nodeOutputs := result.nodeOutputs,
    metadata := result.metadata, error := result.error }

/-- One full attempt of a node: run its executor on the state and apply
the returned patch through the reducers. -/
def execStep (node : StateNodeDefinition) (agents : String → Option CLIAgent)
    (hookEval : HookOracle) (jsonStringify : List (String × String) → String)
    (elapsedMs : Int) (s : OrchestratorStateType) : OrchestratorStateType :=
  applyPatch s (createNodeExecutor node agents hookEval jsonStringify elapsedMs s)

/-- The state after `i` consecutive attempts of the same node (the
self-loop the router produces while retries remain). -/
def stateAfterAttempts (node : StateNodeDefinition)
    (agents : String → Option CLIAgent) (hookEval : HookOracle)
    (jsonStringify : List (String × String) → String) (elapsedMs : Int) :
    Nat → OrchestratorStateType → OrchestratorStateType
  | 0, s => s
  | Nat.succ i, s =>
      stateAfterAttempts node agents hookEval jsonStringify elapsedMs i
        (execStep node agents hookEval jsonStringify elapsedMs s)

/-! ## Zod structural validation (`src/types/state.ts`)

`ManagerAgent.generateStateMachine` validates the planner's JSON document
with `createStateMachineSchemaDefinition().parse(parsed)`.  The Zod schema
checks field presence and types only; it is embedded below as a function
from a JSON document (a `JsValue`) to `Option StateMachineSchema` —
`none` models a thrown `ZodError`.  (Zod collects every type issue into
one `ZodError`; the issue list itself is not needed here and is not
modelled.)  Unknown object keys are stripped, `.optional()` fields accept
a missing or `undefined` value, and `z.number()` places no bound — in
particular no sign constraint — on `maxRetries`.
-/

/-- `z.string()`. -/
def zodString : JsValue → Option String
  | .vStr s => some s
  | _ => none

/-- `z.number()` (fractional values do not arise in the embedded model;
the sign is unconstrained, as in the source). -/
def zodNumber : JsValue → Option Int
  | .vNum n => some n
  | _ => none

/-- A `z.object(...)` input: a plain object's fields (arrays and `null`
are rejected, as Zod distinguishes their parsed types). -/
def zodObjFields : JsValue → Option (List (String × JsValue))
  | .vObj fields => some fields
  | _ => none

/-- A `z.array(...)` input. -/
def zodArrElems : JsValue → Option (List JsValue)
  | .vArr elems => some elems
  | _ => none

/-- `z.record(z.unknown())`: any plain object, kept as-is. -/
def zodRecordUnknown : JsValue → Option (List (String × JsValue))
  | .vObj fields => some fields
  | _ => none

/-- A required object property: absent or `undefined` fails. -/
def zodRequired {α : Type} (p : JsValue → Option α) :
    Option JsValue → Option α
  | none => none
  | some JsValue.vUndefined => none
  | some v => p v

/-- An `.optional()` object property: absent or `undefined` succeeds with
`none`. -/
def zodOptional {α : Type} (p : JsValue → Option α) :
    Option JsValue → Option (Option α)
  | none => some none
  | some JsValue.vUndefined => some none
  | some v => (p v).map some

/-- Element-wise parse of a `z.array(...)` input. -/
def zodList {α : Type} (p : JsValue → Option α) :
    List JsValue → Option (List α)
  | [] => some []
  | v :: rest => do
      let a ← p v
      let tail ← zodList p rest
      pure (a :: tail)

/-- The default agent enum of `AgentTypeSchema`. -/
def defaultAgentEnum : List String := ["claude", "codex", "gemini"]

/-- `createAgentTypeSchema()`: the configured agent list, or the default
enum when the configuration lists none. -/
def createAgentTypeEnum (configAgents : List String) : List String :=
  if configAgents.length == 0 then defaultAgentEnum else configAgents

/-- `ConditionDefinitionSchema.parse`. -/
def zodParseCondition (v : JsValue) : Option ConditionDefinition := do
  let fields ← zodObjFields v
  let code ← zodRequired zodString (recGet fields "code")
  let description ← zodOptional zodString (recGet fields "description")
  pure { code := code, description := description }

/-- `EdgeDefinitionSchema.parse`. -/
def zodParseEdge (v : JsValue) : Option EdgeDefinition := do
  let fields ← zodObjFields v
  let from_ ← zodRequired zodString (recGet fields "from")
  let to_ ← zodRequired zodString (recGet fields "to")
  let condition ← zodOptional zodParseCondition (recGet fields "condition")
  pure { from_ := from_, to_ := to_, condition := condition }

/-- `createStateNodeDefinitionSchema().parse`: the node object schema,
with `agentType` constrained to the configured enum. -/
def zodParseNode (agentEnum : List String) (v : JsValue) :
    Option StateNodeDefinition := do
  let fields ← zodObjFields v
  let id ← zodRequired zodString (recGet fields "id")
  let name ← zodRequired zodString (recGet fields "name")
  let description ← zodRequired zodString (recGet fields "description")
  let agentType ← zodRequired zodString (recGet fields "agentType")
  if agentEnum.contains agentType then
    let basePrompt ← zodRequired zodString (recGet fields "basePrompt")
    let maxRetries ← zodOptional zodNumber (recGet fields "maxRetries")
    let onSuccess ← zodOptional zodString (recGet fields "onSuccess")
    let onError ← zodOptional zodString (recGet fields "onError")
    pure { id := id, name := name, description := description,
           agentType := agentType, basePrompt := basePrompt,
           maxRetries := maxRetries, onSuccess := onSuccess,
           onError := onError }
  else none

/-- `createStateMachineSchemaDefinition().parse`: the whole schema
validation run by `ManagerAgent.generateStateMachine` on the planner's
document. -/
def zodParseStateMachineSchema (configAgents : List String) (v : JsValue) :
    Option StateMachineSchema := do
  let agentEnum := createAgentTypeEnum configAgents
  let fields ← zodObjFields v
  let plan ← zodRequired zodString (recGet fields "plan")
  let diagram ← zodRequired zodString (recGet fields "diagram")
  let nodesJson ← zodRequired zodArrElems (recGet fields "nodes")
  let nodes ← zodList (zodParseNode agentEnum) nodesJson
  let edgesJson ← zodRequired zodArrElems (recGet fields "edges")
  let edges ← zodList zodParseEdge edgesJson
  let startNodeId ← zodRequired zodString (recGet fields "startNodeId")
  let endNodeId ← zodRequired zodString (recGet fields "endNodeId")
  let initialMetadata ← zodOptional zodRecordUnknown
    (recGet fields "initialMetadata")
  pure { plan := plan, diagram := diagram, nodes := nodes, edges := edges,
         startNodeId := startNodeId, endNodeId := endNodeId,
         initialMetadata := initialMetadata }

/-! ### The schema invariants named by the specification

These four predicates state, in the spec's words, what the validator is
claimed to enforce; they are compared against what
`zodParseStateMachineSchema` actually accepts. -/

/-- Node ids are unique. -/
def nodeIdsUnique (s : StateMachineSchema) : Prop :=
  (s.nodes.map (fun n => n.id)).Nodup

/-- Every edge's `from`/`to` references an existing node id. -/
def edgeEndpointsExist (s : StateMachineSchema) : Prop :=
  ∀ e ∈ s.edges, e.from_ ∈ s.nodes.map (fun n => n.id) ∧
    e.to_ ∈ s.nodes.map (fun n => n.id)

/-- `startNodeId` and `endNodeId` reference existing nodes. -/
def startEndExist (s : StateMachineSchema) : Prop :=
  s.startNodeId ∈ s.nodes.map (fun n => n.id) ∧
    s.endNodeId ∈ s.nodes.map (fun n => n.id)

/-- Every `maxRetries` is non-negative. -/
def maxRetriesNonneg (s : StateMachineSchema) : Prop :=
  ∀ n ∈ s.nodes, 0 ≤ n.maxRetries.getD 0

/-! ### JSON rendering of a schema

`encodeStateMachineSchema` renders a `StateMachineSchema` value back to
the JSON document shape the planner produces (optional fields omitted when
absent); it is used to show that the Zod validation accepts every
structurally well-typed document. -/

/-- Render an optional property: omitted when absent. -/
def encodeOpt {α : Type} (enc : α → JsValue) (k : String) :
    Option α → List (String × JsValue)
  | none => []
  | some a => [(k, enc a)]

/-- Render a `ConditionDefinition`. -/
def encodeCondition (c : ConditionDefinition) : JsValue :=
  JsValue.vObj ([("code", JsValue.vStr c.code)] ++
    encodeOpt JsValue.vStr "description" c.description)

/-- Render an `EdgeDefinition`. -/
def encodeEdge (e : EdgeDefinition) : JsValue :=
  JsValue.vObj ([("from", JsValue.vStr e.from_),
    ("to", JsValue.vStr e.to_)] ++
    encodeOpt encodeCondition "condition" e.condition)

/-- Render a `StateNodeDefinition`. -/
def encodeNode (n : StateNodeDefinition) : JsValue :=
  JsValue.vObj ([("id", JsValue.vStr n.id), ("name", JsValue.vStr n.name),
    ("description", JsValue.vStr n.description),
    ("agentType", JsValue.vStr n.agentType),
    ("basePrompt", JsValue.vStr n.basePrompt)] ++
    encodeOpt (fun i => JsValue.vNum i) "maxRetries" n.maxRetries ++
    encodeOpt JsValue.vStr "onSuccess" n.onSuccess ++
    encodeOpt JsValue.vStr "onError" n.onError)

/-- Render a whole `StateMachineSchema`. -/
def encodeStateMachineSchema (s : StateMachineSchema) : JsValue :=
  JsValue.vObj ([("plan", JsValue.vStr s.plan),
    ("diagram", JsValue.vStr s.diagram),
    ("nodes", JsValue.vArr (s.nodes.map encodeNode)),
    ("edges", JsValue.vArr (s.edges.map encodeEdge)),
    ("startNodeId", JsValue.vStr s.startNodeId),
    ("endNodeId", JsValue.vStr s.endNodeId)] ++
    encodeOpt (fun m => JsValue.vObj m) "initialMetadata" s.initialMetadata)

/-! ## Record lemmas

Pointwise behaviour of lookup, assignment and spread-merge on the
insertion-ordered record model; shared by the theorems below. -/

theorem recHasKey_iff_mem {V : Type} (m : List (String × V)) (k : String) :
    recHasKey m k = true ↔ k ∈ m.map Prod.fst := by
  simp [recHasKey, List.any_eq_true, List.mem_map]

theorem recGet_eq_none_of_not_mem {V : Type} {m : List (String × V)}
    {k : String} (h : k ∉ m.map Prod.fst) : recGet m k = none := by
  induction m with
  | nil => rfl
  | cons p rest ih =>
      simp only [List.map_cons, List.mem_cons] at h
      push_neg at h
      simp only [recGet]
      rw [if_neg (fun he => h.1 he.symm)]
      exact ih h.2

theorem mem_of_recGet_eq_some {V : Type} {m : List (String × V)}
    {k : String} {v : V} (h : recGet m k = some v) : (k, v) ∈ m := by
  induction m with
  | nil => simp [recGet] at h
  | cons p rest ih =>
      by_cases hp : p.1 = k
      · simp only [recGet, if_pos hp, Option.some.injEq] at h
        have hpv : p = (k, v) := by
          rcases p with ⟨a, b⟩
          simp_all
        rw [hpv]
        exact List.mem_cons_self _ _
      · simp only [recGet, if_neg hp] at h
        exact List.mem_cons_of_mem _ (ih h)

theorem recGet_append_of_none {V : Type} {a : List (String × V)}
    {k : String} (h : recGet a k = none) (b : List (String × V)) :
    recGet (a ++ b) k = recGet b k := by
  induction a with
  | nil => rfl
  | cons p rest ih =>
      by_cases hp : p.1 = k
      · simp [recGet, if_pos hp] at h
      · simp only [recGet, if_neg hp] at h
        simp only [List.cons_append, recGet, if_neg hp]
        exact ih h

theorem recGet_map_set_of_hasKey {V : Type} {m : List (String × V)}
    {k : String} (h : recHasKey m k = true) (v : V) (k' : String) :
    recGet (m.map (fun p => if p.1 = k then (k, v) else p)) k' =
      if k' = k then some v else recGet m k' := by
  induction m with
  | nil => simp [recHasKey] at h
  | cons p rest ih =>
      by_cases hp : p.1 = k
      · simp only [List.map_cons, if_pos hp, recGet]
        by_cases hk : k = k'
        · rw [if_pos hk, if_pos hk.symm]
        · have hk2 : ¬ (k' = k) := fun he => hk he.symm
          have hp2 : ¬ (p.1 = k') := fun he => hk (hp.symm.trans he)
          rw [if_neg hk, if_neg hk2, if_neg hp2]
          by_cases hm : recHasKey rest k = true
          · rw [ih hm, if_neg hk2]
          · have hnm : k ∉ rest.map Prod.fst := by
              intro hmm
              exact hm ((recHasKey_iff_mem rest k).mpr hmm)
            have hid : (rest.map (fun q => if q.1 = k then (k, v) else q)) =
                rest := by
              rw [show rest = rest.map id by simp]
              rw [List.map_map]
              apply List.map_congr_left
              intro x hx
              have hxk : ¬ (x.1 = k) := by
                intro hxk
                exact hnm (by simpa [hxk] using List.mem_map_of_mem Prod.fst hx)
              simp [hxk]
            rw [hid]
      · simp only [List.map_cons, if_neg hp, recGet]
        have hm : recHasKey rest k = true := by
          simp only [recHasKey, List.any_cons] at h
          rcases Bool.or_eq_true_iff.mp h with h1 | h1
          · exact absurd (by simpa [beq_iff_eq] using h1) hp
          · exact h1
        by_cases hpk : p.1 = k'
        · have hk2 : ¬ (k' = k) := fun he => hp (hpk.trans he)
          rw [if_pos hpk, if_neg hk2, if_pos hpk]
        · rw [if_neg hpk, if_neg hpk, ih hm]

theorem recGet_append_single_ne {V : Type} (m : List (String × V))
    {k k' : String} (hk : ¬ k' = k) (v : V) :
    recGet (m ++ [(k, v)]) k' = recGet m k' := by
  induction m with
  | nil =>
      simp only [List.nil_append, recGet]
      rw [if_neg (fun he => hk he.symm)]
  | cons p rest ih =>
      by_cases hp : p.1 = k'
      · simp [recGet, hp]
      · simp only [List.cons_append, recGet, if_neg hp]
        exact ih

theorem recGet_recSet {V : Type} (m : List (String × V)) (k : String)
    (v : V) (k' : String) :
    recGet (recSet m k v) k' = if k' = k then some v else recGet m k' := by
  unfold recSet
  by_cases h : recHasKey m k = true
  · rw [if_pos h]
    exact recGet_map_set_of_hasKey h v k'
  · rw [if_neg h]
    have hnone : recGet m k = none := by
      apply recGet_eq_none_of_not_mem
      intro hmem
      exact h ((recHasKey_iff_mem m k).mpr hmem)
    by_cases hk : k' = k
    · subst hk
      rw [recGet_append_of_none hnone, if_pos rfl]
      simp [recGet]
    · rw [if_neg hk]
      exact recGet_append_single_ne m hk v

theorem jsMerge_nil {V : Type} (a : List (String × V)) : jsMerge a [] = a :=
  rfl

theorem jsMerge_cons {V : Type} (a : List (String × V)) (p : String × V)
    (b : List (String × V)) :
    jsMerge a (p :: b) = jsMerge (recSet a p.1 p.2) b :=
  rfl

/-- Pointwise reading of a spread-merge `{...a, ...b}` when the keys of
`b` are distinct (as they are for every JS object value): a key of `b`
reads from `b`, any other key reads from `a`. -/
theorem recGet_jsMerge {V : Type} (a b : List (String × V))
    (hb : (b.map Prod.fst).Nodup) (k : String) :
    recGet (jsMerge a b) k =
      if recHasKey b k then recGet b k else recGet a k := by
  induction b generalizing a with
  | nil =>
      simp [jsMerge_nil, recHasKey, recGet]
  | cons p rest ih =>
      simp only [List.map_cons, List.nodup_cons] at hb
      rw [jsMerge_cons, ih _ hb.2]
      by_cases hk : p.1 = k
      · have hrest : recHasKey rest k = false := by
          rcases Bool.eq_false_or_eq_true (recHasKey rest k) with h1 | h1
          · exact absurd ((recHasKey_iff_mem rest k).mp h1) (hk ▸ hb.1)
          · exact h1
        rw [hrest]
        simp only [Bool.false_eq_true, if_false]
        rw [recGet_recSet, if_pos hk.symm]
        have hhead : recHasKey (p :: rest) k = true := by
          simp [recHasKey, hk]
        rw [hhead, if_pos rfl]
        simp [recGet, hk]
      · have hsame : recHasKey (p :: rest) k = recHasKey rest k := by
          simp only [recHasKey, List.any_cons]
          rw [show (p.1 == k) = false by simpa [beq_iff_eq] using hk]
          simp
        rw [hsame]
        by_cases hm : recHasKey rest k = true
        · rw [hm]
          simp only [if_true]
          simp only [recGet]
          rw [if_neg hk]
        · rw [Bool.eq_false_iff.mpr hm]
          simp only [Bool.false_eq_true, if_false]
          rw [recGet_recSet, if_neg (fun he => hk he.symm)]

theorem jsMerge_singleton {V : Type} (a : List (String × V)) (k : String)
    (v : V) : jsMerge a [(k, v)] = recSet a k v :=
  rfl

theorem routerReturn_destinations (l : List String) :
    (routerReturn l).destinations = l := by
  match l with
  | [] => rfl
  | [d] => rfl
  | d1 :: d2 :: ds => rfl

/-! ## The claims -/

/-- **C6.**  A condition or hook expression whose evaluation throws is
caught inside the wrapper: the condition's result degrades to the literal
`false` and the hook's result to the empty mapping.  Both wrappers are
total functions into ordinary values — the evaluation failure neither
aborts the run nor surfaces to the caller. -/
theorem evalError_contained (condEval : CondOracle) (hookEval : HookOracle)
    (conditionCode hookCode : String) (ctx : ConditionContext)
    (hctx : MetadataUpdateContext) (e1 e2 : String)
    (h1 : condEval conditionCode ctx = Except.error e1)
    (h2 : hookEval hookCode hctx = Except.error e2) :
    evaluateCondition condEval conditionCode ctx = JsValue.vBool false ∧
    executeMetadataUpdate hookEval hookCode hctx = [] := by
  constructor
  · simp [evaluateCondition, h1]
  · simp [executeMetadataUpdate, h2]

/-- Witness for `evalError_contained` at concrete throwing evaluations. -/
theorem evalError_contained_witness :
    evaluateCondition (fun _ _ => Except.error "boom") "ctx.x.y"
      { nodeOutputs := [], metadata := [], error := none,
        currentNode := none } = JsValue.vBool false ∧
    executeMetadataUpdate (fun _ _ => Except.error "bad") "($metadata.q)"
      { elapsedMs := 5, retryCount := 0, metadata := [], nodeId := "a" }
      = [] :=
  evalError_contained (fun _ _ => Except.error "boom")
    (fun _ _ => Except.error "bad") "ctx.x.y" "($metadata.q)" _ _
    "boom" "bad" rfl rfl

/-- **C9.**  A hook expression that evaluates, without throwing, to
anything that is not a non-null object (a string, number, boolean,
`null` or `undefined`) yields the empty mapping, so merging the hook's
result leaves `metadata` unchanged. -/
theorem hookNonObject_empty (hookEval : HookOracle) (code : String)
    (hctx : MetadataUpdateContext) (v : JsValue)
    (hEval : hookEval code hctx = Except.ok v)
    (hNotObj : jsTypeofObject v = false ∨ v = JsValue.vNull) :
    executeMetadataUpdate hookEval code hctx = [] ∧
    ∀ metadata : List (String × JsValue),
      mappingReducer metadata (executeMetadataUpdate hookEval code hctx) =
        metadata := by
  have hempty : executeMetadataUpdate hookEval code hctx = [] := by
    rcases hNotObj with h | h
    · simp [executeMetadataUpdate, hEval, h]
    · subst h
      simp [executeMetadataUpdate, hEval, jsIsNull]
  refine ⟨hempty, fun metadata => ?_⟩
  rw [hempty]
  rfl

/-- Witness for `hookNonObject_empty`: a hook returning a bare string
leaves a sample metadata mapping unchanged. -/
theorem hookNonObject_empty_witness :
    executeMetadataUpdate (fun _ _ => Except.ok (JsValue.vStr "done"))
        "$nodeId"
        { elapsedMs := 3, retryCount := 1,
          metadata := [("keep", JsValue.vBool true)], nodeId := "n" } = [] ∧
    ∀ metadata : List (String × JsValue),
      mappingReducer metadata
          (executeMetadataUpdate (fun _ _ => Except.ok (JsValue.vStr "done"))
            "$nodeId"
            { elapsedMs := 3, retryCount := 1,
              metadata := [("keep", JsValue.vBool true)], nodeId := "n" }) =
        metadata :=
  hookNonObject_empty (fun _ _ => Except.ok (JsValue.vStr "done")) "$nodeId"
    _ (JsValue.vStr "done") rfl (Or.inl rfl)

/-- **C10.**  Executing a node whose id has no entry in the agent map
returns the patch `{ error := "No agent available for node: <id>",
currentNode := <id> }` and nothing else: the applied state keeps
`nodeOutputs`, `metadata` and `retryCount` (in particular the node's
attempt counter) exactly as they were. -/
theorem missingAgent_patch (node : StateNodeDefinition)
    (agents : String → Option CLIAgent) (hookEval : HookOracle)
    (jsonStringify : List (String × String) → String) (elapsedMs : Int)
    (state : OrchestratorStateType)
    (hNone : agents node.id = none) :
    (createNodeExecutor node agents hookEval jsonStringify elapsedMs
        state).error =
      some (some ("No agent available for node: " ++ node.id)) ∧
    (createNodeExecutor node agents hookEval jsonStringify elapsedMs
        state).currentNode = some (some node.id) ∧
    (createNodeExecutor node agents hookEval jsonStringify elapsedMs
        state).nodeOutputs = none ∧
    (createNodeExecutor node agents hookEval jsonStringify elapsedMs
        state).metadata = none ∧
    (createNodeExecutor node agents hookEval jsonStringify elapsedMs
        state).retryCount = none ∧
    applyPatch state (createNodeExecutor node agents hookEval jsonStringify
        elapsedMs state) =
      { state with
        error := some ("No agent available for node: " ++ node.id),
        currentNode := some node.id } := by
  simp [createNodeExecutor, hNone, applyPatch, scalarReducer]

/-- Witness for `missingAgent_patch` at a concrete node, empty agent map
and concrete state. -/
theorem missingAgent_patch_witness :
    applyPatch
        { prompt := "p", nodeOutputs := [("a", "out")], finalAnswer := "",
          error := none, metadata := [("m", JsValue.vNum 1)],
          currentNode := some "a", retryCount := [("a", 1)] }
        (createNodeExecutor
          { id := "ghost", name := "g", description := "d",
            agentType := "claude", basePrompt := "b" }
          (fun _ => none) (fun _ _ => Except.error "unused") (fun _ => "")
          0
          { prompt := "p", nodeOutputs := [("a", "out")], finalAnswer := "",
            error := none, metadata := [("m", JsValue.vNum 1)],
            currentNode := some "a", retryCount := [("a", 1)] }) =
      { prompt := "p", nodeOutputs := [("a", "out")], finalAnswer := "",
        error := some "No agent available for node: ghost",
        metadata := [("m", JsValue.vNum 1)],
        currentNode := some "ghost", retryCount := [("a", 1)] } := by
  have h := missingAgent_patch
    { id := "ghost", name := "g", description := "d",
      agentType := "claude", basePrompt := "b" }
    (fun _ => none) (fun _ _ => Except.error "unused") (fun _ => "") 0
    { prompt := "p", nodeOutputs := [("a", "out")], finalAnswer := "",
      error := none, metadata := [("m", JsValue.vNum 1)],
      currentNode := some "a", retryCount := [("a", 1)] }
    rfl
  exact h.2.2.2.2.2

/-- **C5.**  In the non-error (success) case the router's destination set
is the union of the targets of all unconditional outgoing edges — always
included, whatever any conditional edge evaluates to — and the targets of
exactly those conditional outgoing edges whose condition evaluates true;
when that union is empty the router returns `END` (no destinations). -/
theorem successRule_destinations (condEval : CondOracle)
    (schema : StateMachineSchema) (fromNodeId : String)
    (state : OrchestratorStateType)
    (herr : jsStrTruthy state.error = false) :
    (createConditionRouter condEval schema fromNodeId state).destinations =
      ((schema.edges.filter (fun e => e.from_ == fromNodeId)).filter
          (fun e => e.condition.isNone)).map (fun e => e.to_) ++
        ((schema.edges.filter (fun e => e.from_ == fromNodeId)).filter
          (fun e => e.condition.isSome)).filterMap (fun e =>
            match e.condition with
            | some c =>
                if truthy (evaluateCondition condEval c.code
                    (routerCtx state)) then some e.to_
                else none
            | none => none) ∧
    (∀ d, d ∈ (createConditionRouter condEval schema fromNodeId
        state).destinations ↔
      (d ∈ ((schema.edges.filter (fun e => e.from_ == fromNodeId)).filter
          (fun e => e.condition.isNone)).map (fun e => e.to_) ∨
        d ∈ ((schema.edges.filter (fun e => e.from_ == fromNodeId)).filter
          (fun e => e.condition.isSome)).filterMap (fun e =>
            match e.condition with
            | some c =>
                if truthy (evaluateCondition condEval c.code
                    (routerCtx state)) then some e.to_
                else none
            | none => none))) ∧
    (((schema.edges.filter (fun e => e.from_ == fromNodeId)).filter
          (fun e => e.condition.isNone)).map (fun e => e.to_) ++
        ((schema.edges.filter (fun e => e.from_ == fromNodeId)).filter
          (fun e => e.condition.isSome)).filterMap (fun e =>
            match e.condition with
            | some c =>
                if truthy (evaluateCondition condEval c.code
                    (routerCtx state)) then some e.to_
                else none
            | none => none) = [] →
      createConditionRouter condEval schema fromNodeId state =
        RouterResult.toEnd) := by
  have hrouter : createConditionRouter condEval schema fromNodeId state =
      routerReturn
        (((schema.edges.filter (fun e => e.from_ == fromNodeId)).filter
            (fun e => e.condition.isNone)).map (fun e => e.to_) ++
          ((schema.edges.filter (fun e => e.from_ == fromNodeId)).filter
            (fun e => e.condition.isSome)).filterMap (fun e =>
              match e.condition with
              | some c =>
                  if truthy (evaluateCondition condEval c.code
                      (routerCtx state)) then some e.to_
                  else none
              | none => none)) := by
    simp only [createConditionRouter, herr, Bool.false_and, Bool.false_eq_true,
      if_false]
  refine ⟨?_, ?_, ?_⟩
  · rw [hrouter, routerReturn_destinations]
  · intro d
    rw [hrouter, routerReturn_destinations]
    exact List.mem_append
  · intro hnil
    rw [hrouter, hnil]
    rfl

/-- Witness for `successRule_destinations`: a node with three
unconditional outgoing edges and one conditional edge whose condition
evaluates false fans out to exactly the three unconditional targets. -/
theorem successRule_destinations_witness :
    (createConditionRouter (fun _ _ => Except.ok (JsValue.vBool false))
        { plan := "", diagram := "",
          nodes := [{ id := "a", name := "a", description := "",
                      agentType := "claude", basePrompt := "" }],
          edges := [{ from_ := "a", to_ := "b" },
                    { from_ := "a", to_ := "c" },
                    { from_ := "a", to_ := "d" },
                    { from_ := "a", to_ := "e",
                      condition := some { code := "ctx.error" } }],
          startNodeId := "a", endNodeId := "d" } "a"
        { prompt := "p", nodeOutputs := [], finalAnswer := "",
          error := none, metadata := [], currentNode := none,
          retryCount := [] }).destinations = ["b", "c", "d"] := by
  have h := successRule_destinations
    (fun _ _ => Except.ok (JsValue.vBool false))
    { plan := "", diagram := "",
      nodes := [{ id := "a", name := "a", description := "",
                  agentType := "claude", basePrompt := "" }],
      edges := [{ from_ := "a", to_ := "b" },
                { from_ := "a", to_ := "c" },
                { from_ := "a", to_ := "d" },
                { from_ := "a", to_ := "e",
                  condition := some { code := "ctx.error" } }],
      startNodeId := "a", endNodeId := "d" } "a"
    { prompt := "p", nodeOutputs := [], finalAnswer := "",
      error := none, metadata := [], currentNode := none,
      retryCount := [] } rfl
  rw [h.1]
  rfl

/-- **C2 (amended).**  For a node with exactly one unconditional outgoing
edge and `maxRetries = 0`, `buildGraph` wires a plain unconditional
transition, and on every state in which `error` is not set (in particular
after the node completes successfully) that plain transition agrees with
the full router: both route to the edge's target.  (On states where the
node's execution failed — `error` set, no output — the two differ; see the
counterexample.) -/
theorem plainTransition_eq_router (condEval : CondOracle)
    (schema : StateMachineSchema) (n : StateNodeDefinition)
    (e : EdgeDefinition)
    (hedges : schema.edges.filter (fun x => x.from_ == n.id) = [e])
    (hcond : e.condition = none)
    (hfind : schema.nodes.find? (fun x => x.id == n.id) = some n)
    (hretr : n.maxRetries.getD 0 = 0)
    (state : OrchestratorStateType)
    (herr : jsStrTruthy state.error = false) :
    compileNodeRouting condEval schema n.id state = RouterResult.one e.to_ ∧
    createConditionRouter condEval schema n.id state =
      RouterResult.one e.to_ := by
  have hrouter : createConditionRouter condEval schema n.id state =
      RouterResult.one e.to_ := by
    simp only [createConditionRouter, herr, Bool.false_and,
      Bool.false_eq_true, if_false, hedges, hcond]
    simp [routerReturn, hcond]
  refine ⟨?_, hrouter⟩
  simp only [compileNodeRouting, hedges, hfind]
  have h1 : (List.any [e] fun x => x.condition.isSome) = false := by
    simp [hcond]
  rw [h1]
  simp [hretr]

/-- Witness for `plainTransition_eq_router`: a concrete two-node chain on
a non-error state. -/
theorem plainTransition_eq_router_witness :
    compileNodeRouting (fun _ _ => Except.ok (JsValue.vBool false))
        { plan := "", diagram := "",
          nodes := [{ id := "n", name := "n", description := "",
                      agentType := "claude", basePrompt := "",
                      maxRetries := some 0 },
                    { id := "m", name := "m", description := "",
                      agentType := "claude", basePrompt := "" }],
          edges := [{ from_ := "n", to_ := "m" }],
          startNodeId := "n", endNodeId := "m" } "n"
        { prompt := "p", nodeOutputs := [("n", "out")], finalAnswer := "",
          error := none, metadata := [], currentNode := some "n",
          retryCount := [("n", 1)] } = RouterResult.one "m" ∧
    createConditionRouter (fun _ _ => Except.ok (JsValue.vBool false))
        { plan := "", diagram := "",
          nodes := [{ id := "n", name := "n", description := "",
                      agentType := "claude", basePrompt := "",
                      maxRetries := some 0 },
                    { id := "m", name := "m", description := "",
                      agentType := "claude", basePrompt := "" }],
          edges := [{ from_ := "n", to_ := "m" }],
          startNodeId := "n", endNodeId := "m" } "n"
        { prompt := "p", nodeOutputs := [("n", "out")], finalAnswer := "",
          error := none, metadata := [], currentNode := some "n",
          retryCount := [("n", 1)] } = RouterResult.one "m" :=
  plainTransition_eq_router (fun _ _ => Except.ok (JsValue.vBool false))
    { plan := "", diagram := "",
      nodes := [{ id := "n", name := "n", description := "",
                  agentType := "claude", basePrompt := "",
                  maxRetries := some 0 },
                { id := "m", name := "m", description := "",
                  agentType := "claude", basePrompt := "" }],
      edges := [{ from_ := "n", to_ := "m" }],
      startNodeId := "n", endNodeId := "m" }
    { id := "n", name := "n", description := "", agentType := "claude",
      basePrompt := "", maxRetries := some 0 }
    { from_ := "n", to_ := "m" } rfl rfl rfl rfl
    { prompt := "p", nodeOutputs := [("n", "out")], finalAnswer := "",
      error := none, metadata := [], currentNode := some "n",
      retryCount := [("n", 1)] } rfl

/-- **C2 (counterexample).**  On the state reached when the node's single
attempt fails (`maxRetries = 0`), the full router terminates the run
(`END`: no conditional fallback edge matches) while the plain transition
`buildGraph` actually wired routes on to the target unconditionally — so
the optimization is not behaviour-preserving on failure states. -/
theorem plainTransition_neq_router_on_failure :
    (execStep
        { id := "n", name := "n", description := "", agentType := "claude",
          basePrompt := "", maxRetries := some 0 }
        (fun i => if i == "n" then
            some { execute := fun _ => Except.error "boom" }
          else none)
        (fun _ _ => Except.error "unused") (fun _ => "") 7
        (initialExecState "p" none)).error =
      some "Node n failed after 1 attempts: boom" ∧
    compileNodeRouting (fun _ _ => Except.ok (JsValue.vBool false))
        { plan := "", diagram := "",
          nodes := [{ id := "n", name := "n", description := "",
                      agentType := "claude", basePrompt := "",
                      maxRetries := some 0 },
                    { id := "m", name := "m", description := "",
                      agentType := "claude", basePrompt := "" }],
          edges := [{ from_ := "n", to_ := "m" }],
          startNodeId := "n", endNodeId := "m" } "n"
        (execStep
          { id := "n", name := "n", description := "",
            agentType := "claude", basePrompt := "", maxRetries := some 0 }
          (fun i => if i == "n" then
              some { execute := fun _ => Except.error "boom" }
            else none)
          (fun _ _ => Except.error "unused") (fun _ => "") 7
          (initialExecState "p" none)) = RouterResult.one "m" ∧
    createConditionRouter (fun _ _ => Except.ok (JsValue.vBool false))
        { plan := "", diagram := "",
          nodes := [{ id := "n", name := "n", description := "",
                      agentType := "claude", basePrompt := "",
                      maxRetries := some 0 },
                    { id := "m", name := "m", description := "",
                      agentType := "claude", basePrompt := "" }],
          edges := [{ from_ := "n", to_ := "m" }],
          startNodeId := "n", endNodeId := "m" } "n"
        (execStep
          { id := "n", name := "n", description := "",
            agentType := "claude", basePrompt := "", maxRetries := some 0 }
          (fun i => if i == "n" then
              some { execute := fun _ => Except.error "boom" }
            else none)
          (fun _ _ => Except.error "unused") (fun _ => "") 7
          (initialExecState "p" none)) = RouterResult.toEnd ∧
    RouterResult.one "m" ≠ RouterResult.toEnd := by
  refine ⟨rfl, rfl, rfl, ?_⟩
  intro h
  exact RouterResult.noConfusion h

theorem recGet_isSome_of_hasKey {V : Type} {m : List (String × V)}
    {k : String} (h : recHasKey m k = true) : (recGet m k).isSome := by
  induction m with
  | nil => simp [recHasKey] at h
  | cons p rest ih =>
      by_cases hp : p.1 = k
      · simp [recGet, hp]
      · simp only [recGet, if_neg hp]
        apply ih
        simp only [recHasKey, List.any_cons] at h
        rcases Bool.or_eq_true_iff.mp h with h1 | h1
        · exact absurd (by simpa [beq_iff_eq] using h1) hp
        · exact h1

/-- **C7 (amended).**  The mapping reducers (shallow merge into
`metadata` / `nodeOutputs` / `_retryCount`) are commutative — pointwise —
exactly when the two same-step completion patches agree on every shared
key (in particular when their key sets are disjoint, as for the
`nodeOutputs` patches of two distinct completing nodes); when they
conflict on a key, the patch merged last wins for that key, just as the
scalar reducers for `error` and `currentNode` are last-write-wins and not
commutative. -/
theorem mappingReducer_comm_of_agree {V : Type} (a p q : List (String × V))
    (hp : (p.map Prod.fst).Nodup) (hq : (q.map Prod.fst).Nodup)
    (hagree : ∀ k v w, (k, v) ∈ p → (k, w) ∈ q → v = w) :
    (∀ k, recGet (mappingReducer (mappingReducer a p) q) k =
      recGet (mappingReducer (mappingReducer a q) p) k) ∧
    (∀ x y : Option String, scalarReducer x y = y) ∧
    ¬ (∀ x y : Option String, scalarReducer x y = scalarReducer y x) := by
  refine ⟨?_, fun x y => rfl, ?_⟩
  · intro k
    show recGet (jsMerge (jsMerge a p) q) k =
      recGet (jsMerge (jsMerge a q) p) k
    rw [recGet_jsMerge _ _ hq, recGet_jsMerge _ _ hp,
      recGet_jsMerge _ _ hp, recGet_jsMerge _ _ hq]
    by_cases hqk : recHasKey q k = true
    · rw [hqk]
      by_cases hpk : recHasKey p k = true
      · rw [hpk]
        simp only [if_true]
        rcases Option.isSome_iff_exists.mp (recGet_isSome_of_hasKey hqk)
          with ⟨w, hw⟩
        rcases Option.isSome_iff_exists.mp (recGet_isSome_of_hasKey hpk)
          with ⟨v, hv⟩
        rw [hw, hv, hagree k v w (mem_of_recGet_eq_some hv)
          (mem_of_recGet_eq_some hw)]
      · rw [Bool.eq_false_iff.mpr hpk]
        simp
    · rw [Bool.eq_false_iff.mpr hqk]
      by_cases hpk : recHasKey p k = true
      · rw [hpk]
        simp
      · rw [Bool.eq_false_iff.mpr hpk]
        simp
  · intro h
    have hx := h (some "x") none
    simp [scalarReducer] at hx

/-- Witness for `mappingReducer_comm_of_agree`: key-disjoint patches (two
distinct nodes' completions) merge to the same mapping in either order. -/
theorem mappingReducer_comm_of_agree_witness :
    recGet (mappingReducer (mappingReducer
        [("base", JsValue.vNum 0)] [("p1", JsValue.vStr "1")])
        [("q1", JsValue.vStr "2")]) "p1" =
      recGet (mappingReducer (mappingReducer
        [("base", JsValue.vNum 0)] [("q1", JsValue.vStr "2")])
        [("p1", JsValue.vStr "1")]) "p1" ∧
    recGet (mappingReducer (mappingReducer
        [("base", JsValue.vNum 0)] [("p1", JsValue.vStr "1")])
        [("q1", JsValue.vStr "2")]) "q1" =
      recGet (mappingReducer (mappingReducer
        [("base", JsValue.vNum 0)] [("q1", JsValue.vStr "2")])
        [("p1", JsValue.vStr "1")]) "q1" ∧
    recGet (mappingReducer (mappingReducer
        [("base", JsValue.vNum 0)] [("p1", JsValue.vStr "1")])
        [("q1", JsValue.vStr "2")]) "base" =
      recGet (mappingReducer (mappingReducer
        [("base", JsValue.vNum 0)] [("q1", JsValue.vStr "2")])
        [("p1", JsValue.vStr "1")]) "base" := by
  have h := (mappingReducer_comm_of_agree [("base", JsValue.vNum 0)]
    [("p1", JsValue.vStr "1")] [("q1", JsValue.vStr "2")]
    (by simp) (by simp)
    (by
      intro k v w hv hw
      simp only [List.mem_singleton, Prod.mk.injEq] at hv hw
      rw [hv.1] at hw
      simp at hw)).1
  exact ⟨h "p1", h "q1", h "base"⟩

/-- **C7 (counterexample).**  Two same-step completion patches that both
write the metadata key `"k"` do not commute: whichever shallow merge is
applied last wins, so the mapping reducer is not commutative for every
pair of patches. -/
theorem mappingReducer_not_comm :
    mappingReducer (mappingReducer ([] : List (String × JsValue))
        [("k", JsValue.vStr "1")]) [("k", JsValue.vStr "2")] =
      [("k", JsValue.vStr "2")] ∧
    mappingReducer (mappingReducer ([] : List (String × JsValue))
        [("k", JsValue.vStr "2")]) [("k", JsValue.vStr "1")] =
      [("k", JsValue.vStr "1")] ∧
    ([("k", JsValue.vStr "2")] : List (String × JsValue)) ≠
      [("k", JsValue.vStr "1")] := by
  refine ⟨rfl, rfl, ?_⟩
  simp

/-- **C4 (amended).**  At termination: when `error` is non-empty the
final answer is `"Error during execution: " ++ error`; otherwise it is
the most recently inserted value of `nodeOutputs` provided that value is
non-empty; the placeholder `"No output generated"` is returned when
`nodeOutputs` is empty or when its most recently inserted value is the
empty string (the source guards the popped value with `|| placeholder`,
so an empty final output also falls back to the placeholder). -/
theorem finalAnswer_rule (result : OrchestratorStateType) :
    (∀ s, result.error = some s → s ≠ "" →
      (executeGraphResult result).finalAnswer =
        "Error during execution: " ++ s) ∧
    (jsStrTruthy result.error = false →
      ∀ v, (recValues result.nodeOutputs).getLast? = some v → v ≠ "" →
        (executeGraphResult result).finalAnswer = v) ∧
    (jsStrTruthy result.error = false →
      (result.nodeOutputs = [] ∨
        (recValues result.nodeOutputs).getLast? = some "") →
      (executeGraphResult result).finalAnswer = "No output generated") := by
  refine ⟨?_, ?_, ?_⟩
  · intro s hs hne
    simp [executeGraphResult, hs, jsStrTruthy, hne]
  · intro herr v hv hne
    simp [executeGraphResult, herr, hv, hne]
  · intro herr hcase
    rcases hcase with h | h
    · simp [executeGraphResult, herr, h, recValues]
    · simp [executeGraphResult, herr, h]

/-- Witness for `finalAnswer_rule`: the three branches at concrete
terminal states. -/
theorem finalAnswer_rule_witness :
    (executeGraphResult
        { prompt := "p", nodeOutputs := [("a", "early")], finalAnswer := "",
          error := some "oops", metadata := [], currentNode := some "a",
          retryCount := [] }).finalAnswer =
      "Error during execution: oops" ∧
    (executeGraphResult
        { prompt := "p", nodeOutputs := [("a", "first"), ("b", "last")],
          finalAnswer := "", error := none, metadata := [],
          currentNode := some "b", retryCount := [] }).finalAnswer =
      "last" ∧
    (executeGraphResult
        { prompt := "p", nodeOutputs := [], finalAnswer := "",
          error := none, metadata := [], currentNode := none,
          retryCount := [] }).finalAnswer = "No output generated" :=
  ⟨(finalAnswer_rule
      { prompt := "p", nodeOutputs := [("a", "early")], finalAnswer := "",
        error := some "oops", metadata := [], currentNode := some "a",
        retryCount := [] }).1 "oops" rfl (by simp),
    (finalAnswer_rule
      { prompt := "p", nodeOutputs := [("a", "first"), ("b", "last")],
        finalAnswer := "", error := none, metadata := [],
        currentNode := some "b", retryCount := [] }).2.1 rfl "last" rfl
      (by simp),
    (finalAnswer_rule
      { prompt := "p", nodeOutputs := [], finalAnswer := "",
        error := none, metadata := [], currentNode := none,
        retryCount := [] }).2.2 rfl (Or.inl rfl)⟩

/-- **C4 (counterexample).**  A terminal state with no error and a
non-empty `nodeOutputs` whose most recently inserted value is the empty
string: the engine returns the placeholder, not that value — so the
placeholder is not returned only on an empty `nodeOutputs`, and the final
answer is not always the most recently inserted value. -/
theorem finalAnswer_placeholder_on_nonempty :
    (executeGraphResult
        { prompt := "p", nodeOutputs := [("a", "")], finalAnswer := "",
          error := none, metadata := [], currentNode := some "a",
          retryCount := [("a", 1)] }).finalAnswer = "No output generated" ∧
    ([("a", "")] : List (String × String)) ≠ [] ∧
    (recValues ([("a", "")] : List (String × String))).getLast? = some "" ∧
    "No output generated" ≠ "" := by
  refine ⟨rfl, by simp, rfl, by simp⟩

/-- **C8.**  The patch a node execution returns, applied to the state:
on success it merges `{nodeId: output}` into `nodeOutputs`, clears
`error`, sets `currentNode` to the node and `retryCount[nodeId]` to the
attempt number; on failure it leaves `nodeOutputs` untouched, sets
`error` to the raw delegate message while attempts remain and to
`"Node <id> failed after <n> attempts: <msg>"` once retries are
exhausted, and sets `currentNode` and `retryCount[nodeId]` likewise. -/
theorem nodeExecutor_patch (node : StateNodeDefinition)
    (agents : String → Option CLIAgent) (hookEval : HookOracle)
    (jsonStringify : List (String × String) → String) (elapsedMs : Int)
    (state : OrchestratorStateType) (agent : CLIAgent)
    (hAgent : agents node.id = some agent) :
    (∀ out,
      agent.execute (node.basePrompt ++
          "\n\nContext from previous steps:\n" ++
          jsonStringify state.nodeOutputs) = Except.ok out →
      (∀ k, recGet (applyPatch state (createNodeExecutor node agents
          hookEval jsonStringify elapsedMs state)).nodeOutputs k =
        if k = node.id then some out else recGet state.nodeOutputs k) ∧
      (applyPatch state (createNodeExecutor node agents hookEval
          jsonStringify elapsedMs state)).error = none ∧
      (applyPatch state (createNodeExecutor node agents hookEval
          jsonStringify elapsedMs state)).currentNode = some node.id ∧
      recGet (applyPatch state (createNodeExecutor node agents hookEval
          jsonStringify elapsedMs state)).retryCount node.id =
        some (recGetD state.retryCount node.id 0 + 1)) ∧
    (∀ msg,
      agent.execute (node.basePrompt ++
          "\n\nContext from previous steps:\n" ++
          jsonStringify state.nodeOutputs) = Except.error msg →
      (applyPatch state (createNodeExecutor node agents hookEval
          jsonStringify elapsedMs state)).nodeOutputs = state.nodeOutputs ∧
      (applyPatch state (createNodeExecutor node agents hookEval
          jsonStringify elapsedMs state)).error =
        some (if recGetD state.retryCount node.id 0 + 1 <
            node.maxRetries.getD 0 + 1 then msg
          else "Node " ++ node.id ++ " failed after " ++
            toString (recGetD state.retryCount node.id 0 + 1) ++
            " attempts: " ++ msg) ∧
      (applyPatch state (createNodeExecutor node agents hookEval
          jsonStringify elapsedMs state)).currentNode = some node.id ∧
      recGet (applyPatch state (createNodeExecutor node agents hookEval
          jsonStringify elapsedMs state)).retryCount node.id =
        some (recGetD state.retryCount node.id 0 + 1)) := by
  constructor
  · intro out hOk
    simp only [createNodeExecutor, hAgent, hOk, applyPatch]
    refine ⟨?_, rfl, rfl, ?_⟩
    · intro k
      rw [show mappingReducer state.nodeOutputs
          [(node.id, out)] = recSet state.nodeOutputs node.id out from rfl]
      exact recGet_recSet state.nodeOutputs node.id out k
    · rw [show mappingReducer state.retryCount
          [(node.id, recGetD state.retryCount node.id 0 + 1)] =
          recSet state.retryCount node.id
            (recGetD state.retryCount node.id 0 + 1) from rfl]
      rw [recGet_recSet, if_pos rfl]
  · intro msg hErr
    simp only [createNodeExecutor, hAgent, hErr, applyPatch]
    by_cases hlt : recGetD state.retryCount node.id 0 + 1 <
        node.maxRetries.getD 0 + 1
    · rw [if_pos hlt, if_pos hlt]
      refine ⟨rfl, rfl, rfl, ?_⟩
      show recGet (recSet state.retryCount node.id
          (recGetD state.retryCount node.id 0 + 1)) node.id =
        some (recGetD state.retryCount node.id 0 + 1)
      rw [recGet_recSet, if_pos rfl]
    · rw [if_neg hlt, if_neg hlt]
      refine ⟨rfl, rfl, rfl, ?_⟩
      show recGet (recSet state.retryCount node.id
          (recGetD state.retryCount node.id 0 + 1)) node.id =
        some (recGetD state.retryCount node.id 0 + 1)
      rw [recGet_recSet, if_pos rfl]

/-- Witness for `nodeExecutor_patch`: a successful execution records the
output and clears the error; an exhausted failing execution (second
attempt, `maxRetries = 1`) reports the attempt count. -/
theorem nodeExecutor_patch_witness :
    recGet (applyPatch (initialExecState "p" none)
        (createNodeExecutor
          { id := "x", name := "x", description := "", agentType := "claude",
            basePrompt := "do", maxRetries := some 1 }
          (fun _ => some { execute := fun _ => Except.ok "res" })
          (fun _ _ => Except.error "unused") (fun _ => "") 0
          (initialExecState "p" none))).nodeOutputs "x" = some "res" ∧
    (applyPatch (initialExecState "p" none)
        (createNodeExecutor
          { id := "x", name := "x", description := "", agentType := "claude",
            basePrompt := "do", maxRetries := some 1 }
          (fun _ => some { execute := fun _ => Except.ok "res" })
          (fun _ _ => Except.error "unused") (fun _ => "") 0
          (initialExecState "p" none))).error = none ∧
    (applyPatch
        { prompt := "p", nodeOutputs := [], finalAnswer := "",
          error := some "bad", metadata := [], currentNode := some "x",
          retryCount := [("x", 1)] }
        (createNodeExecutor
          { id := "x", name := "x", description := "", agentType := "claude",
            basePrompt := "do", maxRetries := some 1 }
          (fun _ => some { execute := fun _ => Except.error "bad" })
          (fun _ _ => Except.error "unused") (fun _ => "") 0
          { prompt := "p", nodeOutputs := [], finalAnswer := "",
            error := some "bad", metadata := [], currentNode := some "x",
            retryCount := [("x", 1)] })).error =
      some "Node x failed after 2 attempts: bad" := by
  have hs := (nodeExecutor_patch
    { id := "x", name := "x", description := "", agentType := "claude",
      basePrompt := "do", maxRetries := some 1 }
    (fun _ => some { execute := fun _ => Except.ok "res" })
    (fun _ _ => Except.error "unused") (fun _ => "") 0
    (initialExecState "p" none)
    { execute := fun _ => Except.ok "res" } rfl).1 "res" rfl
  have hf := (nodeExecutor_patch
    { id := "x", name := "x", description := "", agentType := "claude",
      basePrompt := "do", maxRetries := some 1 }
    (fun _ => some { execute := fun _ => Except.error "bad" })
    (fun _ _ => Except.error "unused") (fun _ => "") 0
    { prompt := "p", nodeOutputs := [], finalAnswer := "",
      error := some "bad", metadata := [], currentNode := some "x",
      retryCount := [("x", 1)] }
    { execute := fun _ => Except.error "bad" } rfl).2 "bad" rfl
  refine ⟨?_, hs.2.1, ?_⟩
  · rw [hs.1 "x"]
    rfl
  · rw [hf.2.1]
    rfl

theorem zodList_map {α : Type} (p : JsValue → Option α) (enc : α → JsValue)
    (l : List α) (h : ∀ x ∈ l, p (enc x) = some x) :
    zodList p (l.map enc) = some l := by
  induction l with
  | nil => rfl
  | cons x rest ih =>
      simp only [List.map_cons, zodList, h x (List.mem_cons_self x rest)]
      rw [ih (fun y hy => h y (List.mem_cons_of_mem x hy))]
      rfl

theorem zodParseCondition_encode (c : ConditionDefinition) :
    zodParseCondition (encodeCondition c) = some c := by
  obtain ⟨code, description⟩ := c
  cases description <;> rfl

theorem zodParseEdge_encode (e : EdgeDefinition) :
    zodParseEdge (encodeEdge e) = some e := by
  obtain ⟨from_, to_, condition⟩ := e
  cases condition with
  | none => rfl
  | some c =>
      obtain ⟨code, description⟩ := c
      cases description <;> rfl

set_option maxHeartbeats 2000000 in
theorem zodParseNode_encode (agentEnum : List String)
    (n : StateNodeDefinition)
    (h : agentEnum.contains n.agentType = true) :
    zodParseNode agentEnum (encodeNode n) = some n := by
  obtain ⟨id, name, description, agentType, basePrompt, maxRetries,
    onSuccess, onError⟩ := n
  simp only at h
  cases maxRetries <;> cases onSuccess <;> cases onError <;>
    simp [zodParseNode, encodeNode, encodeOpt, zodRequired, zodOptional,
      zodString, zodNumber, zodObjFields, recGet, h] <;>
    exact List.elem_iff.mp h

/-- **C1 (amended).**  The schema validation run by
`ManagerAgent.generateStateMachine` is the Zod structural parse alone: it
accepts every structurally well-typed document (every rendered
`StateMachineSchema` whose `agentType` fields lie in the configured enum
round-trips through the parse), regardless of duplicate node ids, edges
referencing unknown node ids, unknown start/end node ids, or negative
`maxRetries` — none of those invariants is checked or reported. -/
theorem zodValidation_accepts_wellTyped (configAgents : List String)
    (s : StateMachineSchema)
    (hAgents : ∀ n ∈ s.nodes,
      (createAgentTypeEnum configAgents).contains n.agentType = true) :
    zodParseStateMachineSchema configAgents (encodeStateMachineSchema s) =
      some s := by
  obtain ⟨plan, diagram, nodes, edges, startNodeId, endNodeId,
    initialMetadata⟩ := s
  have hnodes : zodList (zodParseNode (createAgentTypeEnum configAgents))
      (nodes.map encodeNode) = some nodes :=
    zodList_map _ _ _ (fun x hx => zodParseNode_encode _ x (hAgents x hx))
  have hedges : zodList zodParseEdge (edges.map encodeEdge) = some edges :=
    zodList_map _ _ _ (fun x _ => zodParseEdge_encode x)
  cases initialMetadata <;>
    simp [zodParseStateMachineSchema, encodeStateMachineSchema, encodeOpt,
      zodRequired, zodOptional, zodString, zodObjFields, zodArrElems,
      zodRecordUnknown, recGet, hnodes, hedges]

/-- A structurally well-typed planner document that violates every
invariant the specification ascribes to the validator: duplicate node id
`"a"`, an edge to the unknown node `"ghost"`, unknown `startNodeId`, and
a negative `maxRetries`. -/
def invalidSampleDoc : JsValue :=
  JsValue.vObj
    [("plan", JsValue.vStr "p"), ("diagram", JsValue.vStr "d"),
     ("nodes", JsValue.vArr
       [JsValue.vObj
          [("id", JsValue.vStr "a"), ("name", JsValue.vStr "first"),
           ("description", JsValue.vStr ""),
           ("agentType", JsValue.vStr "claude"),
           ("basePrompt", JsValue.vStr "x")],
        JsValue.vObj
          [("id", JsValue.vStr "a"), ("name", JsValue.vStr "second"),
           ("description", JsValue.vStr ""),
           ("agentType", JsValue.vStr "claude"),
           ("basePrompt", JsValue.vStr "y")],
        JsValue.vObj
          [("id", JsValue.vStr "b"), ("name", JsValue.vStr "third"),
           ("description", JsValue.vStr ""),
           ("agentType", JsValue.vStr "claude"),
           ("basePrompt", JsValue.vStr "z"),
           ("maxRetries", JsValue.vNum (-3))]]),
     ("edges", JsValue.vArr
       [JsValue.vObj
          [("from", JsValue.vStr "a"), ("to", JsValue.vStr "ghost")]]),
     ("startNodeId", JsValue.vStr "missing"),
     ("endNodeId", JsValue.vStr "b")]

/-- The value the Zod parse produces for `invalidSampleDoc`. -/
def invalidSampleSchema : StateMachineSchema :=
  { plan := "p", diagram := "d",
    nodes :=
      [{ id := "a", name := "first", description := "",
         agentType := "claude", basePrompt := "x" },
       { id := "a", name := "second", description := "",
         agentType := "claude", basePrompt := "y" },
       { id := "b", name := "third", description := "",
         agentType := "claude", basePrompt := "z",
         maxRetries := some (-3) }],
    edges := [{ from_ := "a", to_ := "ghost" }],
    startNodeId := "missing", endNodeId := "b" }

/-- **C1 (counterexample).**  With the default agent enum, the validator
accepts `invalidSampleDoc` even though its node ids are not unique, its
edge references an unknown node, its start node id does not exist and a
`maxRetries` is negative — refuting the claimed
"accepts only if all invariants hold / reports every violation". -/
theorem zodValidation_not_invariant_checking :
    zodParseStateMachineSchema [] invalidSampleDoc =
      some invalidSampleSchema ∧
    ¬ nodeIdsUnique invalidSampleSchema ∧
    ¬ edgeEndpointsExist invalidSampleSchema ∧
    ¬ startEndExist invalidSampleSchema ∧
    ¬ maxRetriesNonneg invalidSampleSchema := by
  refine ⟨rfl, ?_, ?_, ?_, ?_⟩
  · intro h
    simp [nodeIdsUnique, invalidSampleSchema] at h
  · intro h
    have := h { from_ := "a", to_ := "ghost" } (by
      simp [invalidSampleSchema])
    simp [invalidSampleSchema] at this
  · intro h
    have := h.1
    simp [invalidSampleSchema] at this
  · intro h
    have := h { id := "b", name := "third", description := "",
                agentType := "claude", basePrompt := "z",
                maxRetries := some (-3) } (by simp [invalidSampleSchema])
    simp at this

/-- Witness for `zodValidation_accepts_wellTyped`: the invariant-violating
schema itself is structurally well-typed, and the validator accepts it. -/
theorem zodValidation_accepts_wellTyped_witness :
    zodParseStateMachineSchema []
      (encodeStateMachineSchema invalidSampleSchema) =
      some invalidSampleSchema :=
  zodValidation_accepts_wellTyped [] invalidSampleSchema (by
    intro n hn
    simp [invalidSampleSchema] at hn
    rcases hn with h | h | h <;> rw [h] <;> rfl)

theorem stateAfterAttempts_succ (node : StateNodeDefinition)
    (agents : String → Option CLIAgent) (hookEval : HookOracle)
    (jsonStringify : List (String × String) → String) (elapsedMs : Int) :
    ∀ (i : Nat) (s : OrchestratorStateType),
      stateAfterAttempts node agents hookEval jsonStringify elapsedMs
          (i + 1) s =
        execStep node agents hookEval jsonStringify elapsedMs
          (stateAfterAttempts node agents hookEval jsonStringify elapsedMs
            i s) := by
  intro i
  induction i with
  | zero => intro s; rfl
  | succ i ih =>
      intro s
      show stateAfterAttempts node agents hookEval jsonStringify elapsedMs
          (i + 1) (execStep node agents hookEval jsonStringify elapsedMs s) =
        _
      rw [ih]
      rfl

theorem recSet_single_same {V : Type} (key : String) (a b : V) :
    recSet [(key, a)] key b = [(key, b)] := by
  simp [recSet, recHasKey]

/-- State invariant of the failing-retry loop: after `i ≤ k + 1` attempts
of a node with `maxRetries = k` whose delegate always throws `msg`, the
node still has no output, its attempt counter reads `i`, and `error`
holds the raw message while attempts remain and the elaborated
`"failed after k+1 attempts"` message at the last attempt. -/
theorem retryLoop_invariant (node : StateNodeDefinition)
    (agents : String → Option CLIAgent) (agent : CLIAgent)
    (hookEval : HookOracle)
    (jsonStringify : List (String × String) → String) (elapsedMs : Int)
    (k : Nat) (msg : String) (s0 : OrchestratorStateType)
    (hAgent : agents node.id = some agent)
    (hFail : ∀ p, agent.execute p = Except.error msg)
    (hMax : node.maxRetries = some (k : Int))
    (hOut0 : s0.nodeOutputs = [])
    (hRetry0 : s0.retryCount = []) :
    ∀ i, i ≤ k + 1 →
      (stateAfterAttempts node agents hookEval jsonStringify elapsedMs i
          s0).nodeOutputs = [] ∧
      (stateAfterAttempts node agents hookEval jsonStringify elapsedMs i
          s0).retryCount =
        (if i = 0 then [] else [(node.id, (i : Int))]) ∧
      (stateAfterAttempts node agents hookEval jsonStringify elapsedMs i
          s0).error =
        (if i = 0 then s0.error
         else if i < k + 1 then some msg
         else some ("Node " ++ node.id ++ " failed after " ++
           toString ((k : Int) + 1) ++ " attempts: " ++ msg)) := by
  intro i
  induction i with
  | zero =>
      intro _
      exact ⟨hOut0, by simp [stateAfterAttempts, hRetry0],
        by simp [stateAfterAttempts]⟩
  | succ i ih =>
      intro hle
      have hik : i ≤ k + 1 := Nat.le_of_succ_le hle
      obtain ⟨hOut, hRetry, hErr⟩ := ih hik
      rw [stateAfterAttempts_succ]
      have hGetD : recGetD (stateAfterAttempts node agents hookEval
          jsonStringify elapsedMs i s0).retryCount node.id 0 = (i : Int) := by
        rw [hRetry]
        by_cases h0 : i = 0
        · subst h0
          simp [recGetD, recGet]
        · simp [recGetD, recGet, h0]
      simp only [execStep, createNodeExecutor, hAgent, hFail, hGetD, hMax,
        Option.getD_some]
      by_cases hlt : (i : Int) + 1 < (k : Int) + 1
      · have hlt2 : i + 1 < k + 1 := by exact_mod_cast hlt
        rw [if_pos hlt]
        refine ⟨?_, ?_, ?_⟩
        · simp only [applyPatch]
          exact hOut
        · simp only [applyPatch, mappingReducer]
          rw [hRetry]
          by_cases h0 : i = 0
          · subst h0
            simp [jsMerge, recSet, recHasKey]
          · rw [if_neg h0, jsMerge_singleton, recSet_single_same]
            simp [h0, Nat.cast_add, Nat.cast_one]
        · simp only [applyPatch, scalarReducer]
          rw [if_neg (Nat.succ_ne_zero i), if_pos hlt2]
      · have heq : i + 1 = k + 1 := by
          have h1 : ¬ (i + 1 < k + 1) := by
            intro hc
            exact hlt (by exact_mod_cast hc)
          omega
        have hik2 : i = k := by omega
        subst hik2
        rw [if_neg hlt]
        refine ⟨?_, ?_, ?_⟩
        · simp only [applyPatch]
          exact hOut
        · simp only [applyPatch, mappingReducer]
          rw [hRetry]
          by_cases h0 : i = 0
          · subst h0
            simp [jsMerge, recSet, recHasKey]
          · rw [if_neg h0, jsMerge_singleton, recSet_single_same]
            simp [h0, Nat.cast_add, Nat.cast_one]
        · simp only [applyPatch, scalarReducer]
          rw [if_neg (Nat.succ_ne_zero i), if_neg (by omega)]

theorem failedMsg_ne_empty (id ms : String) (n : Int) :
    ("Node " ++ id ++ " failed after " ++ toString n ++ " attempts: " ++
      ms) ≠ "" := by
  intro h
  have hlen := congrArg String.length h
  rw [String.length_append, String.length_append, String.length_append,
    String.length_append, String.length_append] at hlen
  have h5 : ("Node ").length = 5 := rfl
  have h0 : ("" : String).length = 0 := rfl
  rw [h5, h0] at hlen
  omega

/-- **C3 (amended).**  A node with `maxRetries = k` whose delegate fails
on every attempt **with a non-empty error message** produces exactly
`k + 1` recorded attempts starting from the engine's initial state: the
attempt counter reaches `k + 1`, the router returns the node itself after
each of the first `k` failed attempts, after the `(k+1)`-st attempt —
given no matching conditional fallback edge — it returns `END` (no
destinations), and the final error message states the node failed after
`k + 1` attempts. -/
theorem retryBound (condEval : CondOracle) (schema : StateMachineSchema)
    (node : StateNodeDefinition) (agents : String → Option CLIAgent)
    (agent : CLIAgent) (hookEval : HookOracle)
    (jsonStringify : List (String × String) → String) (elapsedMs : Int)
    (prompt : String) (im : Option (List (String × JsValue))) (k : Nat)
    (msg : String)
    (hAgent : agents node.id = some agent)
    (hFail : ∀ p, agent.execute p = Except.error msg)
    (hMsg : msg ≠ "")
    (hMax : node.maxRetries = some (k : Int))
    (hFind : schema.nodes.find? (fun x => x.id == node.id) = some node)
    (hNoFallback : (schema.edges.filter
        (fun e => e.from_ == node.id)).find? (fun e =>
          match e.condition with
          | some c => truthy (evaluateCondition condEval c.code
              (routerCtx (stateAfterAttempts node agents hookEval
                jsonStringify elapsedMs (k + 1)
                (initialExecState prompt im))))
          | none => false) = none) :
    recGet (stateAfterAttempts node agents hookEval jsonStringify elapsedMs
        (k + 1) (initialExecState prompt im)).retryCount node.id =
      some ((k : Int) + 1) ∧
    (∀ i, 1 ≤ i → i ≤ k →
      createConditionRouter condEval schema node.id
          (stateAfterAttempts node agents hookEval jsonStringify elapsedMs
            i (initialExecState prompt im)) =
        RouterResult.one node.id) ∧
    createConditionRouter condEval schema node.id
        (stateAfterAttempts node agents hookEval jsonStringify elapsedMs
          (k + 1) (initialExecState prompt im)) =
      RouterResult.toEnd ∧
    (stateAfterAttempts node agents hookEval jsonStringify elapsedMs
        (k + 1) (initialExecState prompt im)).error =
      some ("Node " ++ node.id ++ " failed after " ++
        toString ((k : Int) + 1) ++ " attempts: " ++ msg) := by
  have hInv := retryLoop_invariant node agents agent hookEval jsonStringify
    elapsedMs k msg (initialExecState prompt im) hAgent hFail hMax rfl rfl
  obtain ⟨hOutF, hRetryF, hErrF⟩ := hInv (k + 1) (le_refl _)
  rw [if_neg (Nat.succ_ne_zero k), if_neg (lt_irrefl (k + 1))] at hErrF
  rw [if_neg (Nat.succ_ne_zero k)] at hRetryF
  refine ⟨?_, ?_, ?_, hErrF⟩
  · rw [hRetryF]
    simp [recGet, Nat.cast_add, Nat.cast_one]
  · intro i h1 hk
    obtain ⟨hOut, hRetry, hErr⟩ := hInv i (le_trans hk (Nat.le_succ k))
    rw [if_neg (by omega), if_pos (by omega)] at hErr
    rw [if_neg (by omega)] at hRetry
    have hTr : jsStrTruthy (stateAfterAttempts node agents hookEval
        jsonStringify elapsedMs i (initialExecState prompt im)).error =
        true := by
      rw [hErr]
      exact bne_iff_ne.mpr hMsg
    have hOut2 : recHasKey (stateAfterAttempts node agents hookEval
        jsonStringify elapsedMs i (initialExecState prompt im)).nodeOutputs
        node.id = false := by
      rw [hOut]
      rfl
    have hAtt : recGetD (stateAfterAttempts node agents hookEval
        jsonStringify elapsedMs i (initialExecState prompt im)).retryCount
        node.id 0 = (i : Int) := by
      rw [hRetry]
      simp [recGetD, recGet]
    have hd : decide ((i : Int) < (node.maxRetries.getD 0 : Int) + 1) =
        true := by
      rw [hMax]
      simp only [Option.getD_some]
      exact decide_eq_true (by exact_mod_cast Nat.lt_succ_of_le hk)
    simp [createConditionRouter, hTr, hOut2, hAtt, hFind, hMax, hd]
    intro hcontra
    exfalso
    have hcast : k + 1 ≤ i := by exact_mod_cast hcontra
    omega
  · have hTr : jsStrTruthy (stateAfterAttempts node agents hookEval
        jsonStringify elapsedMs (k + 1)
        (initialExecState prompt im)).error = true := by
      rw [hErrF]
      exact bne_iff_ne.mpr (failedMsg_ne_empty node.id msg ((k : Int) + 1))
    have hAtt : recGetD (stateAfterAttempts node agents hookEval
        jsonStringify elapsedMs (k + 1)
        (initialExecState prompt im)).retryCount node.id 0 =
        (k : Int) + 1 := by
      rw [hRetryF]
      simp [recGetD, recGet, Nat.cast_add, Nat.cast_one]
    have hd1 : decide ((k : Int) + 1 <
        (node.maxRetries.getD 0 : Int) + 1) = false := by
      rw [hMax]
      simp only [Option.getD_some]
      exact decide_eq_false (by omega)
    have hd2 : decide ((k : Int) + 1 ≥
        (node.maxRetries.getD 0 : Int) + 1) = true := by
      rw [hMax]
      simp only [Option.getD_some]
      exact decide_eq_true (by omega)
    simp [createConditionRouter, hTr, hAtt, hFind, hMax, hd1, hd2,
      hNoFallback]

/-- Witness for `retryBound`: node `X` with `maxRetries = 1` and a
delegate that always throws `"boom"` — two recorded attempts, a self-loop
after the first, `END` after the second, and the elaborated final error
message. -/
theorem retryBound_witness :
    recGet (stateAfterAttempts
        { id := "X", name := "X", description := "", agentType := "claude",
          basePrompt := "", maxRetries := some 1 }
        (fun _ => some { execute := fun _ => Except.error "boom" })
        (fun _ _ => Except.error "unused") (fun _ => "") 0 2
        (initialExecState "p" none)).retryCount "X" = some 2 ∧
    createConditionRouter (fun _ _ => Except.ok (JsValue.vBool false))
        { plan := "", diagram := "",
          nodes := [{ id := "X", name := "X", description := "",
                      agentType := "claude", basePrompt := "",
                      maxRetries := some 1 }],
          edges := [], startNodeId := "X", endNodeId := "X" } "X"
        (stateAfterAttempts
          { id := "X", name := "X", description := "",
            agentType := "claude", basePrompt := "", maxRetries := some 1 }
          (fun _ => some { execute := fun _ => Except.error "boom" })
          (fun _ _ => Except.error "unused") (fun _ => "") 0 1
          (initialExecState "p" none)) = RouterResult.one "X" ∧
    createConditionRouter (fun _ _ => Except.ok (JsValue.vBool false))
        { plan := "", diagram := "",
          nodes := [{ id := "X", name := "X", description := "",
                      agentType := "claude", basePrompt := "",
                      maxRetries := some 1 }],
          edges := [], startNodeId := "X", endNodeId := "X" } "X"
        (stateAfterAttempts
          { id := "X", name := "X", description := "",
            agentType := "claude", basePrompt := "", maxRetries := some 1 }
          (fun _ => some { execute := fun _ => Except.error "boom" })
          (fun _ _ => Except.error "unused") (fun _ => "") 0 2
          (initialExecState "p" none)) = RouterResult.toEnd ∧
    (stateAfterAttempts
        { id := "X", name := "X", description := "", agentType := "claude",
          basePrompt := "", maxRetries := some 1 }
        (fun _ => some { execute := fun _ => Except.error "boom" })
        (fun _ _ => Except.error "unused") (fun _ => "") 0 2
        (initialExecState "p" none)).error =
      some "Node X failed after 2 attempts: boom" := by
  have h := retryBound (fun _ _ => Except.ok (JsValue.vBool false))
    { plan := "", diagram := "",
      nodes := [{ id := "X", name := "X", description := "",
                  agentType := "claude", basePrompt := "",
                  maxRetries := some 1 }],
      edges := [], startNodeId := "X", endNodeId := "X" }
    { id := "X", name := "X", description := "", agentType := "claude",
      basePrompt := "", maxRetries := some 1 }
    (fun _ => some { execute := fun _ => Except.error "boom" })
    { execute := fun _ => Except.error "boom" }
    (fun _ _ => Except.error "unused") (fun _ => "") 0 "p" none 1 "boom"
    rfl (fun _ => rfl) (by decide) rfl rfl rfl
  exact ⟨h.1, h.2.1 1 (le_refl 1) (le_refl 1), h.2.2.1, h.2.2.2⟩

/-- **C3 (counterexample).**  The retry claim fails when the delegate's
thrown error has an **empty** message: after the first failed attempt
`error` is the empty string, which is falsy, so the router takes the
success path instead of the retry self-loop — with no outgoing edges it
terminates after one attempt instead of retrying (`maxRetries = 1` should
have produced a second attempt and a `[X]` self-loop). -/
theorem retryBound_empty_message_counterexample :
    (stateAfterAttempts
        { id := "X", name := "X", description := "", agentType := "claude",
          basePrompt := "", maxRetries := some 1 }
        (fun _ => some { execute := fun _ => Except.error "" })
        (fun _ _ => Except.error "unused") (fun _ => "") 0 1
        (initialExecState "p" none)).error = some "" ∧
    (stateAfterAttempts
        { id := "X", name := "X", description := "", agentType := "claude",
          basePrompt := "", maxRetries := some 1 }
        (fun _ => some { execute := fun _ => Except.error "" })
        (fun _ _ => Except.error "unused") (fun _ => "") 0 1
        (initialExecState "p" none)).retryCount = [("X", 1)] ∧
    createConditionRouter (fun _ _ => Except.ok (JsValue.vBool false))
        { plan := "", diagram := "",
          nodes := [{ id := "X", name := "X", description := "",
                      agentType := "claude", basePrompt := "",
                      maxRetries := some 1 }],
          edges := [], startNodeId := "X", endNodeId := "X" } "X"
        (stateAfterAttempts
          { id := "X", name := "X", description := "",
            agentType := "claude", basePrompt := "", maxRetries := some 1 }
          (fun _ => some { execute := fun _ => Except.error "" })
          (fun _ _ => Except.error "unused") (fun _ => "") 0 1
          (initialExecState "p" none)) = RouterResult.toEnd ∧
    RouterResult.toEnd ≠ RouterResult.one "X" := by
  refine ⟨rfl, rfl, rfl, ?_⟩
  intro h
  exact RouterResult.noConfusion h
